import Mathlib

/-!
Verification of the leveled rotating logging core (logger/glog) and of the
multi-VM transaction processor (core/multivm_processor.go).

The logging engine itself ships only with its test suite here, so the engine's
operations are modelled from the specification, with every concrete behaviour
pinned by the expectations of `glog_test.go` (header bytes, compiled module
patterns, rotation decision table, timestamp extraction table).
-/

namespace Glog

/-! ## Decimal digit rendering

The Go implementation renders header fields digit-by-digit into a fixed
buffer (`twoDigits`, `nDigits`, `someDigits`), extracting each digit by
division and remainder.  The specification instead speaks of zero-padded
decimal fields; `decRepr` below is the plain decimal rendering used to state
the specification side. -/

/-- The ASCII digit character for `n % 10`, as written by the Go buffer code
(`digits[d%10]`). -/
def digitChar (n : Nat) : Char := Char.ofNat (48 + n % 10)

/-- Decimal rendering of a natural number, most significant digit first,
with explicit fuel to keep the definition structurally recursive. -/
def decChars (fuel n : Nat) : List Char :=
  match fuel with
  | 0 => []
  | fuel + 1 => if n < 10 then [digitChar n] else decChars fuel (n / 10) ++ [digitChar n]

/-- Plain (unpadded) decimal rendering of a natural number. -/
def decRepr (n : Nat) : List Char := decChars (n + 1) n

/-- The digit list the Go buffer code produces for a `k`-wide zero-padded
field: position `i` holds the digit of `n / 10 ^ (k - 1 - i)`. -/
def codeDigits (k n : Nat) : List Char :=
  (List.range k).map (fun i => digitChar (n / 10 ^ (k - 1 - i)))

theorem decChars_congr : ∀ n f, n < f → decChars f n = decChars (n + 1) n := by
  intro n
  induction n using Nat.strong_induction_on with
  | _ n ih =>
    intro f hf
    cases f with
    | zero => omega
    | succ f =>
      by_cases h10 : n < 10
      · simp [decChars, h10]
      · have hn : 10 ≤ n := Nat.le_of_not_lt h10
        have hd : n / 10 < n := Nat.div_lt_self (by omega) (by omega)
        have h1 : decChars f (n / 10) = decChars (n / 10 + 1) (n / 10) :=
          ih (n / 10) hd f (by omega)
        have h2 : decChars n (n / 10) = decChars (n / 10 + 1) (n / 10) :=
          ih (n / 10) hd n (by omega)
        simp [decChars, h10, h1, h2]

theorem decRepr_of_lt {n : Nat} (h : n < 10) : decRepr n = [digitChar n] := by
  simp [decRepr, decChars, h]

theorem decRepr_of_ge {n : Nat} (h : 10 ≤ n) :
    decRepr n = decRepr (n / 10) ++ [digitChar n] := by
  have hd : n / 10 < n := Nat.div_lt_self (by omega) (by omega)
  have : decChars n (n / 10) = decChars (n / 10 + 1) (n / 10) := decChars_congr _ _ hd
  simp [decRepr, decChars, Nat.not_lt.mpr h, this]

theorem digitChar_zero : digitChar 0 = '0' := by decide

/-- Zero-padding the plain decimal rendering of `n < 10 ^ (k + 1)` to width
`k + 1` yields exactly the digit-by-position list the buffer code writes. -/
theorem leftpad_decRepr : ∀ k n, n < 10 ^ (k + 1) →
    (decRepr n).leftpad (k + 1) '0' = codeDigits (k + 1) n := by
  intro k
  induction k with
  | zero =>
    intro n hn
    simp at hn
    rw [decRepr_of_lt hn]
    simp [List.leftpad, codeDigits, List.range_succ]
  | succ k ih =>
    intro n hn
    have hr : List.range (k + 1 + 1) = List.range (k + 1) ++ [k + 1] := List.range_succ (k + 1)
    have h0 : k + 1 + 1 - 1 - (k + 1) = 0 := by omega
    by_cases h10 : n < 10
    · rw [decRepr_of_lt h10]
      have hcode : codeDigits (k + 1 + 1) n =
          List.replicate (k + 1) '0' ++ [digitChar n] := by
        unfold codeDigits
        rw [hr, List.map_append]
        congr 1
        · have hmap : (List.range (k + 1)).map
              (fun i => digitChar (n / 10 ^ (k + 1 + 1 - 1 - i))) =
              (List.range (k + 1)).map (fun _ => '0') := by
            apply List.map_congr_left
            intro i hi
            have hi' : i < k + 1 := List.mem_range.mp hi
            have hexp : 1 ≤ k + 1 + 1 - 1 - i := by omega
            have hz : n / 10 ^ (k + 1 + 1 - 1 - i) = 0 := by
              apply Nat.div_eq_of_lt
              calc n < 10 := h10
              _ = 10 ^ 1 := (pow_one 10).symm
              _ ≤ 10 ^ (k + 1 + 1 - 1 - i) :=
                  Nat.pow_le_pow_right (by omega) hexp
            rw [hz, digitChar_zero]
          rw [hmap, List.map_const']
          simp
        · simp [h0]
      rw [hcode]
      simp [List.leftpad]
    · have hge : 10 ≤ n := Nat.le_of_not_lt h10
      rw [decRepr_of_ge hge]
      have hdiv : n / 10 < 10 ^ (k + 1) := by
        rw [Nat.div_lt_iff_lt_mul (by omega : 0 < 10)]
        calc n < 10 ^ (k + 1 + 1) := hn
        _ = 10 ^ (k + 1) * 10 := by ring
      have ihn := ih (n / 10) hdiv
      have hstep : (decRepr (n / 10) ++ [digitChar n]).leftpad (k + 1 + 1) '0' =
          (decRepr (n / 10)).leftpad (k + 1) '0' ++ [digitChar n] := by
        simp [List.leftpad, Nat.succ_sub_succ, List.append_assoc]
      have hcode : codeDigits (k + 1 + 1) n =
          codeDigits (k + 1) (n / 10) ++ [digitChar n] := by
        unfold codeDigits
        rw [hr, List.map_append]
        congr 1
        · apply List.map_congr_left
          intro i hi
          have hi' : i < k + 1 := List.mem_range.mp hi
          have hexp : k + 1 + 1 - 1 - i = (k + 1 - 1 - i) + 1 := by omega
          rw [hexp, pow_succ', ← Nat.div_div_eq_div_mul]
        · simp [h0]
      rw [hstep, ihn, hcode]

/-! ## Severity -/

/-- The ordered severity enumeration Info < Warning < Error < Fatal. -/
inductive Severity
  | info
  | warning
  | error
  | fatal
  deriving DecidableEq, Repr

/-- Numeric rank giving the total order used for cascading. -/
def Severity.rank : Severity → Nat
  | .info => 0
  | .warning => 1
  | .error => 2
  | .fatal => 3

/-- Single display character of each severity. -/
def severityChar : Severity → Char
  | .info => 'I'
  | .warning => 'W'
  | .error => 'E'
  | .fatal => 'F'

/-- Upper-case severity names, as used in rotated file names and in
`severityByName`. -/
def severityName : Severity → String
  | .info => "INFO"
  | .warning => "WARNING"
  | .error => "ERROR"
  | .fatal => "FATAL"

/-- Modelled from the spec: each severity has a display color code
(`severityColor` in glog.go, absent from src).  The tests treat the color
strings as opaque, so representative ANSI escape sequences are used; no
theorem below depends on their exact value. -/
def severityColor : Severity → String
  | .info => "\x1b[37m"
  | .warning => "\x1b[33m"
  | .error => "\x1b[31m"
  | .fatal => "\x1b[35m"

/-- Modelled from the spec: the color reset sequence (`severityColorReset`). -/
def severityColorReset : String := "\x1b[0m"

/-! ## Header formatter

Modelled from the spec (§4.3, §6) with the exact byte layout pinned by
`TestHeader1ErrorLog` and `TestHeader2InfoLog`: the Go `formatHeader` writes
`<color><SevChar><reset>MMDD HH:MM:SS.ffffff <file>:<line>] ` digit by digit
into a buffer. -/

/-- An injected clock value: the broken-down local time of the log call. -/
structure Clock where
  month : Nat
  day : Nat
  hour : Nat
  minute : Nat
  second : Nat
  micros : Nat
  deriving DecidableEq, Repr

/-- Two-digit zero-padded field as the Go buffer writes it
(`twoDigits`: digit of `n / 10`, then digit of `n`). -/
def twoDigits (n : Nat) : String :=
  String.mk [digitChar (n / 10), digitChar n]

/-- Six-digit zero-padded microsecond field as the Go buffer writes it
(`nDigits(6, ...)`). -/
def sixDigits (n : Nat) : String :=
  String.mk [digitChar (n / 100000), digitChar (n / 10000), digitChar (n / 1000),
    digitChar (n / 100), digitChar (n / 10), digitChar n]

/-- Unpadded decimal field as the Go buffer writes it (`someDigits`). -/
def someDigits (n : Nat) : String := String.mk (decRepr n)

/-- Whether the message already ends in a newline (the Go code checks the
last byte of the buffered message). -/
def endsWithNL (s : String) : Bool := s.data.getLast? == some '\n'

/-- Modelled from the spec: glog.go's `formatHeader` (absent from src).
Renders `<color><SevChar><reset>MMDD HH:MM:SS.ffffff <file>:<line>] `.
The process id is captured by the package but is not written into the
header; this byte layout is pinned exactly by `TestHeader1ErrorLog`. -/
def formatHeader (s : Severity) (t : Clock) (file : String) (line : Nat) : String :=
  severityColor s ++ String.singleton (severityChar s) ++ severityColorReset ++
  twoDigits t.month ++ twoDigits t.day ++ " " ++
  twoDigits t.hour ++ ":" ++ twoDigits t.minute ++ ":" ++ twoDigits t.second ++
  "." ++ sixDigits t.micros ++ " " ++ file ++ ":" ++ someDigits line ++ "] "

/-- Modelled from the spec: a full rendered log line — header, message, and a
trailing newline when the message lacks one.  The pid argument mirrors the
package-level `pid` variable (settable in tests); the header code never
reads it. -/
def renderLine (s : Severity) (t : Clock) (pid : Nat) (file : String)
    (line : Nat) (msg : String) : String :=
  let _ := pid
  formatHeader s t file line ++ msg ++ (if endsWithNL msg then "" else "\n")

/-- Zero-padded decimal of width `k` — the specification's reading of a
header field ("zero-padded date/time fields"). -/
def padDec (k n : Nat) : String := String.mk ((decRepr n).leftpad k '0')

/-- The header line exactly as §6 of the specification words it, including
the `<pid>` column between the microsecond timestamp and `<file>:<line>`.
Kept separate from `renderLine` (which follows the code pinned by the
tests) so the two renderings can be compared. -/
def specPidLine (s : Severity) (t : Clock) (pid : Nat) (file : String)
    (line : Nat) (msg : String) : String :=
  severityColor s ++ String.singleton (severityChar s) ++ severityColorReset ++
  padDec 2 t.month ++ padDec 2 t.day ++ " " ++
  padDec 2 t.hour ++ ":" ++ padDec 2 t.minute ++ ":" ++ padDec 2 t.second ++
  "." ++ padDec 6 t.micros ++ " " ++ someDigits pid ++ " " ++
  file ++ ":" ++ someDigits line ++ "] " ++
  msg ++ (if endsWithNL msg then "" else "\n")

/-- The header line as the specification words it but without the pid
column — the amended format. -/
def specNoPidLine (s : Severity) (t : Clock) (file : String)
    (line : Nat) (msg : String) : String :=
  severityColor s ++ String.singleton (severityChar s) ++ severityColorReset ++
  padDec 2 t.month ++ padDec 2 t.day ++ " " ++
  padDec 2 t.hour ++ ":" ++ padDec 2 t.minute ++ ":" ++ padDec 2 t.second ++
  "." ++ padDec 6 t.micros ++ " " ++
  file ++ ":" ++ someDigits line ++ "] " ++
  msg ++ (if endsWithNL msg then "" else "\n")

theorem twoDigits_eq_padDec {n : Nat} (h : n < 100) : twoDigits n = padDec 2 n := by
  have hp := leftpad_decRepr 1 n (by simpa using h)
  have hc : codeDigits 2 n = [digitChar (n / 10), digitChar n] := by
    simp [codeDigits, List.range_succ]
  unfold padDec twoDigits
  rw [hp, hc]

theorem sixDigits_eq_padDec {n : Nat} (h : n < 1000000) : sixDigits n = padDec 6 n := by
  have hp := leftpad_decRepr 5 n (by simpa using h)
  have hc : codeDigits 6 n = [digitChar (n / 100000), digitChar (n / 10000),
      digitChar (n / 1000), digitChar (n / 100), digitChar (n / 10), digitChar n] := by
    simp [codeDigits, List.range_succ]
  unfold padDec sixDigits
  rw [hp, hc]

/-! ## Sink manager and cascading

Modelled from the spec (§4.5, §4.6): one sink per severity; `output` writes
the rendered bytes to the target severity's sink and, via the Go
switch-fallthrough chain, to every lower severity's sink. -/

/-- The per-severity sink contents (the bytes each sink has received). -/
structure Sinks where
  info : String
  warning : String
  error : String
  fatal : String
  deriving DecidableEq, Repr

def writeInfo (d : String) (st : Sinks) : Sinks := { st with info := st.info ++ d }

def writeWarning (d : String) (st : Sinks) : Sinks := { st with warning := st.warning ++ d }

def writeError (d : String) (st : Sinks) : Sinks := { st with error := st.error ++ d }

def writeFatal (d : String) (st : Sinks) : Sinks := { st with fatal := st.fatal ++ d }

/-- Modelled from the spec: `loggingT.output` (absent from src) — the write
path with severity cascading, mirroring the Go `switch s \x7b case fatalLog:
... fallthrough ... \x7d` chain: a write at severity `s` appends the same
bytes to the sink of `s` and of every lower severity. -/
def output : Severity → String → Sinks → Sinks
  | .info, d, st => writeInfo d st
  | .warning, d, st => writeInfo d (writeWarning d st)
  | .error, d, st => writeInfo d (writeWarning d (writeError d st))
  | .fatal, d, st => writeInfo d (writeWarning d (writeError d (writeFatal d st)))

/-! ## Pattern compiler

Modelled from the spec (§4.1), with the compiled form of the three reference
globs pinned exactly by `TestCompileModulePattern`:
`"foo/bar/x.go" ↦ .*/foo/bar/x\.go$`, `"foo/*/x.go" ↦ .*/foo(/.*)?/x\.go$`,
`"foo/*" ↦ .*/foo(/.*)?/[^/]+\.go$`.  The compiled pattern is represented
structurally as a list of `PatItem`s; `regexOf` renders it back to the regex
text the test compares, and `matchItems` gives the matching semantics of the
regex fragments actually produced (`(/.*)?`, quoted literals, `/[^/]+\.go`,
with the leading `.*` and trailing `$` anchors). -/

/-- One component of a compiled module pattern. -/
inductive PatItem
  | optSeg
  | lit (cs : List Char)
  | anyFile
  deriving DecidableEq, Repr

/-- The characters Go's `regexp.QuoteMeta` escapes. -/
def regexSpecial : List Char :=
  ['\\', '.', '+', '*', '?', '(', ')', '|', '[', ']', '\x7b', '\x7d', '^', '$']

/-- Go `regexp.QuoteMeta` on a character list. -/
def quoteMeta (cs : List Char) : List Char :=
  cs.foldr (fun c acc => if c ∈ regexSpecial then '\\' :: c :: acc else c :: acc) []

/-- Regex text of one compiled component. -/
def itemRegex : PatItem → String
  | .optSeg => "(/.*)?"
  | .lit cs => "/" ++ String.mk (quoteMeta cs)
  | .anyFile => "/[^/]+\\.go"

/-- Regex text of a whole compiled pattern, with the `.*` and `$` anchors. -/
def regexOf (items : List PatItem) : String :=
  ".*" ++ String.join (items.map itemRegex) ++ "$"

/-- Go `strings.Split` on `'/'`, over character lists. -/
def splitOnSlash : List Char → List (List Char)
  | [] => [[]]
  | c :: cs =>
    let r := splitOnSlash cs
    if c = '/' then [] :: r else (c :: r.headI) :: r.tail

/-- Modelled from the spec: `compileModulePattern` (absent from src).  The
glob is split on `/`; a bare `*` component becomes the optional-segments
wildcard `(/.*)?`, an empty component is dropped, and any other component
becomes `/` plus its quoted text; when the glob does not end in `.go`, a
final `/[^/]+\.go` component is appended.  The compiled regex text for the
three reference globs is pinned by `TestCompileModulePattern`. -/
def compileModulePattern (pat : String) : List PatItem :=
  ((splitOnSlash pat.data).filterMap (fun comp =>
    if comp = ['*'] then some PatItem.optSeg
    else if comp = [] then none
    else some (PatItem.lit comp))) ++
  (if ['.', 'g', 'o'].isSuffixOf pat.data then [] else [PatItem.anyFile])

/-- Matching semantics of a compiled pattern body against a path fragment:
whether `items`, followed by the end-of-text anchor, matches `s` exactly. -/
def matchItems : List PatItem → List Char → Bool
  | [], s => s.isEmpty
  | .optSeg :: rest, s =>
    matchItems rest s ||
      (match s with
       | c :: t => c == '/' && t.tails.any (fun u => matchItems rest u)
       | [] => false)
  | .lit cs :: rest, s =>
    ('/' :: cs).isPrefixOf s && matchItems rest (s.drop (cs.length + 1))
  | .anyFile :: rest, s =>
    match s with
    | c :: t =>
      c == '/' && (List.range t.length).any (fun k =>
        decide (1 ≤ k) && (t.take k).all (fun c => c != '/') &&
        ['.', 'g', 'o'].isPrefixOf (t.drop k) && matchItems rest (t.drop (k + 3)))
    | [] => false

/-- Whether a compiled pattern accepts a source path: the leading `.*`
allows the body to match any suffix of the path. -/
def patMatches (items : List PatItem) (path : String) : Bool :=
  path.data.tails.any (fun s => matchItems items s)

theorem matchItems_nil_iff {s : List Char} : matchItems [] s = true ↔ s = [] := by
  cases s <;> simp [matchItems]

theorem matchItems_lit_iff {cs : List Char} {rest : List PatItem} {s : List Char} :
    matchItems (.lit cs :: rest) s = true ↔
      ∃ t, s = '/' :: cs ++ t ∧ matchItems rest t = true := by
  constructor
  · intro h
    simp only [matchItems, Bool.and_eq_true] at h
    obtain ⟨hpre, hrest⟩ := h
    obtain ⟨t, ht⟩ := List.isPrefixOf_iff_prefix.mp hpre
    refine ⟨t, ht.symm, ?_⟩
    have hdrop : s.drop (cs.length + 1) = t := by
      rw [← ht]
      have : cs.length + 1 = ('/' :: cs).length := by simp
      rw [this, List.drop_left]
    rwa [hdrop] at hrest
  · rintro ⟨t, rfl, hm⟩
    simp only [matchItems, Bool.and_eq_true]
    constructor
    · exact List.isPrefixOf_iff_prefix.mpr ⟨t, rfl⟩
    · have : cs.length + 1 = ('/' :: cs).length := by simp
      rw [show ('/' :: cs ++ t) = ('/' :: cs) ++ t from rfl, this, List.drop_left]
      exact hm

theorem matchItems_optSeg_iff {rest : List PatItem} {s : List Char} :
    matchItems (.optSeg :: rest) s = true ↔
      matchItems rest s = true ∨
        ∃ a t, s = '/' :: (a ++ t) ∧ matchItems rest t = true := by
  constructor
  · intro h
    simp only [matchItems, Bool.or_eq_true] at h
    rcases h with h | h
    · exact Or.inl h
    · cases s with
      | nil => simp at h
      | cons c t =>
        simp only [Bool.and_eq_true, beq_iff_eq] at h
        obtain ⟨rfl, h⟩ := h
        obtain ⟨u, hu, hm⟩ := List.any_eq_true.mp h
        obtain ⟨a, ha⟩ := (List.mem_tails u t).mp hu
        exact Or.inr ⟨a, u, by rw [← ha], hm⟩
  · intro h
    simp only [matchItems, Bool.or_eq_true]
    rcases h with h | ⟨a, t, rfl, hm⟩
    · exact Or.inl h
    · refine Or.inr (List.any_eq_true.mpr ⟨t, ?_, hm⟩)
      exact (List.mem_tails t (a ++ t)).mpr ⟨a, rfl⟩

theorem matchItems_anyFile_iff {rest : List PatItem} {s : List Char} :
    matchItems (.anyFile :: rest) s = true ↔
      ∃ name t, s = '/' :: (name ++ '.' :: 'g' :: 'o' :: t) ∧ name ≠ [] ∧
        name.all (fun c => c != '/') = true ∧ matchItems rest t = true := by
  constructor
  · intro h
    cases s with
    | nil => simp [matchItems] at h
    | cons c t₀ =>
      simp only [matchItems, Bool.and_eq_true, beq_iff_eq] at h
      obtain ⟨rfl, h⟩ := h
      obtain ⟨k, hk, hcond⟩ := List.any_eq_true.mp h
      have hk' : k < t₀.length := List.mem_range.mp hk
      simp only [Bool.and_eq_true, decide_eq_true_eq] at hcond
      obtain ⟨⟨⟨hk1, hall⟩, hpre⟩, hrest⟩ := hcond
      obtain ⟨u, hu⟩ := List.isPrefixOf_iff_prefix.mp hpre
      refine ⟨t₀.take k, t₀.drop (k + 3), ?_, ?_, hall, hrest⟩
      · have hsplit : t₀ = t₀.take k ++ t₀.drop k := (List.take_append_drop k t₀).symm
        have hdrop3 : t₀.drop (k + 3) = u := by
          have h33 : t₀.drop (k + 3) = (t₀.drop k).drop 3 := by
            rw [List.drop_drop]
          rw [h33, ← hu]
          rfl
        rw [show ('/' :: t₀ : List Char) = '/' :: (t₀.take k ++ t₀.drop k) by rw [← hsplit]]
        rw [← hu, hdrop3]
        rfl
      · have : (t₀.take k).length = k := List.length_take_of_le (Nat.le_of_lt hk')
        intro hemp
        rw [hemp] at this
        simp at this
        omega
  · rintro ⟨name, t, rfl, hne, hall, hm⟩
    simp only [matchItems, Bool.and_eq_true, beq_iff_eq]
    refine ⟨trivial, ?_⟩
    apply List.any_eq_true.mpr
    refine ⟨name.length, ?_, ?_⟩
    · apply List.mem_range.mpr
      simp
    · simp only [Bool.and_eq_true, decide_eq_true_eq]
      have htake : (name ++ '.' :: 'g' :: 'o' :: t).take name.length = name :=
        List.take_left name _
      have hdropk : (name ++ '.' :: 'g' :: 'o' :: t).drop name.length =
          '.' :: 'g' :: 'o' :: t := List.drop_left name _
      refine ⟨⟨⟨?_, ?_⟩, ?_⟩, ?_⟩
      · cases name with
        | nil => exact absurd rfl hne
        | cons c cs => simp
      · rw [htake]; exact hall
      · rw [hdropk]
        exact List.isPrefixOf_iff_prefix.mpr ⟨t, rfl⟩
      · have : (name ++ '.' :: 'g' :: 'o' :: t).drop (name.length + 3) = t := by
          have h33 : (name ++ '.' :: 'g' :: 'o' :: t).drop (name.length + 3) =
              ((name ++ '.' :: 'g' :: 'o' :: t).drop name.length).drop 3 := by
            rw [List.drop_drop]
          rw [h33, hdropk]
          rfl
        rwa [this]

theorem patMatches_iff {items : List PatItem} {p : String} :
    patMatches items p = true ↔ ∃ s, s <:+ p.data ∧ matchItems items s = true := by
  constructor
  · intro h
    obtain ⟨s, hs, hm⟩ := List.any_eq_true.mp h
    exact ⟨s, (List.mem_tails s p.data).mp hs, hm⟩
  · rintro ⟨s, hs, hm⟩
    exact List.any_eq_true.mpr ⟨s, (List.mem_tails s p.data).mpr hs, hm⟩

theorem matchItems_fooBarXgo (s : List Char) :
    matchItems [.lit ['f', 'o', 'o'], .lit ['b', 'a', 'r'], .lit ['x', '.', 'g', 'o']] s = true ↔
      s = "/foo/bar/x.go".data := by
  have hd : "/foo/bar/x.go".data =
      '/' :: ['f', 'o', 'o'] ++ ('/' :: ['b', 'a', 'r'] ++ ('/' :: ['x', '.', 'g', 'o'] ++ [])) := rfl
  rw [hd]
  constructor
  · intro h
    obtain ⟨t1, h1, hm1⟩ := matchItems_lit_iff.mp h
    clear h
    subst h1
    obtain ⟨t2, h2, hm2⟩ := matchItems_lit_iff.mp hm1
    clear hm1
    subst h2
    obtain ⟨t3, h3, hm3⟩ := matchItems_lit_iff.mp hm2
    clear hm2
    subst h3
    rw [matchItems_nil_iff.mp hm3]
  · rintro rfl
    exact matchItems_lit_iff.mpr ⟨_, rfl, matchItems_lit_iff.mpr ⟨_, rfl,
      matchItems_lit_iff.mpr ⟨_, rfl, matchItems_nil_iff.mpr rfl⟩⟩⟩

theorem matchItems_fooStar_iff (s : List Char) :
    matchItems [.lit ['f', 'o', 'o'], .optSeg, .anyFile] s = true ↔
      ∃ mid name, s = '/' :: ['f', 'o', 'o'] ++ (mid ++ '/' :: (name ++ ['.', 'g', 'o'])) ∧
        (mid = [] ∨ ∃ m, mid = '/' :: m) ∧ name ≠ [] ∧
        name.all (fun c => c != '/') = true := by
  constructor
  · intro h
    obtain ⟨t1, h1, hm1⟩ := matchItems_lit_iff.mp h
    clear h
    subst h1
    rcases matchItems_optSeg_iff.mp hm1 with hm2 | ⟨a, t2, h2, hm2⟩
    · obtain ⟨name, t3, h3, hne, hall, hm3⟩ := matchItems_anyFile_iff.mp hm2
      clear hm1 hm2
      subst h3
      obtain rfl := matchItems_nil_iff.mp hm3
      exact ⟨[], name, by simp, Or.inl rfl, hne, hall⟩
    · clear hm1
      subst h2
      obtain ⟨name, t3, h3, hne, hall, hm3⟩ := matchItems_anyFile_iff.mp hm2
      clear hm2
      subst h3
      obtain rfl := matchItems_nil_iff.mp hm3
      exact ⟨'/' :: a, name, by simp, Or.inr ⟨a, rfl⟩, hne, hall⟩
  · rintro ⟨mid, name, rfl, hmid, hne, hall⟩
    apply matchItems_lit_iff.mpr
    refine ⟨mid ++ '/' :: (name ++ ['.', 'g', 'o']), rfl, ?_⟩
    apply matchItems_optSeg_iff.mpr
    rcases hmid with rfl | ⟨m, rfl⟩
    · left
      apply matchItems_anyFile_iff.mpr
      exact ⟨name, [], by simp, hne, hall, matchItems_nil_iff.mpr rfl⟩
    · right
      refine ⟨m, '/' :: (name ++ ['.', 'g', 'o']), by simp, ?_⟩
      apply matchItems_anyFile_iff.mpr
      exact ⟨name, [], by simp, hne, hall, matchItems_nil_iff.mpr rfl⟩

/-- Decides the reading of C3's "one path segment below a foo directory":
the path ends in `/foo/<name>` for a nonempty `name` free of separators. -/
def oneSegBelowFoo (s : List Char) : Bool :=
  s.tails.any (fun t => ['/', 'f', 'o', 'o', '/'].isPrefixOf t &&
    (t.drop 5).all (fun c => c != '/') && decide (5 < t.length))

theorem oneSegBelowFoo_iff (s : List Char) :
    oneSegBelowFoo s = true ↔
      ∃ pre name, s = pre ++ '/' :: 'f' :: 'o' :: 'o' :: '/' :: name ∧ name ≠ [] ∧
        name.all (fun c => c != '/') = true := by
  constructor
  · intro h
    obtain ⟨t, ht, hcond⟩ := List.any_eq_true.mp h
    obtain ⟨pre, hpre⟩ := (List.mem_tails t s).mp ht
    simp only [Bool.and_eq_true, decide_eq_true_eq] at hcond
    obtain ⟨⟨hpfx, hall⟩, hlen⟩ := hcond
    obtain ⟨u, hu⟩ := List.isPrefixOf_iff_prefix.mp hpfx
    have hdrop : t.drop 5 = u := by rw [← hu]; rfl
    refine ⟨pre, u, ?_, ?_, by rwa [hdrop] at hall⟩
    · rw [← hpre, ← hu]
      rfl
    · intro hemp
      rw [← hu, hemp] at hlen
      simp at hlen
  · rintro ⟨pre, name, rfl, hne, hall⟩
    apply List.any_eq_true.mpr
    refine ⟨'/' :: 'f' :: 'o' :: 'o' :: '/' :: name, ?_, ?_⟩
    · exact (List.mem_tails _ _).mpr ⟨pre, rfl⟩
    · simp only [Bool.and_eq_true, decide_eq_true_eq]
      refine ⟨⟨?_, ?_⟩, ?_⟩
      · exact List.isPrefixOf_iff_prefix.mpr ⟨name, rfl⟩
      · exact hall
      · simp
        cases name with
        | nil => exact absurd rfl hne
        | cons c cs => simp

theorem patMatches_fooBarXgo_iff (p : String) :
    patMatches [.lit ['f', 'o', 'o'], .lit ['b', 'a', 'r'], .lit ['x', '.', 'g', 'o']] p = true ↔
      "/foo/bar/x.go".data <:+ p.data := by
  rw [patMatches_iff]
  constructor
  · rintro ⟨s, hs, hm⟩
    rwa [(matchItems_fooBarXgo s).mp hm] at hs
  · intro h
    exact ⟨"/foo/bar/x.go".data, h, (matchItems_fooBarXgo _).mpr rfl⟩

theorem patMatches_fooMidXgo (mid : String) :
    patMatches [.lit ['f', 'o', 'o'], .optSeg, .lit ['x', '.', 'g', 'o']]
      ("/foo/" ++ mid ++ "/x.go") = true := by
  apply patMatches_iff.mpr
  refine ⟨("/foo/" ++ mid ++ "/x.go").data, List.suffix_refl _, ?_⟩
  have h1 : "/foo/".data = ['/', 'f', 'o', 'o', '/'] := rfl
  have h2 : "/x.go".data = ['/', 'x', '.', 'g', 'o'] := rfl
  have hdata : ("/foo/" ++ mid ++ "/x.go").data =
      '/' :: ['f', 'o', 'o'] ++ ('/' :: (mid.data ++ '/' :: ['x', '.', 'g', 'o'])) := by
    simp [String.data_append, h1, h2]
  rw [hdata]
  apply matchItems_lit_iff.mpr
  refine ⟨'/' :: (mid.data ++ '/' :: ['x', '.', 'g', 'o']), rfl, ?_⟩
  apply matchItems_optSeg_iff.mpr
  refine Or.inr ⟨mid.data, '/' :: ['x', '.', 'g', 'o'], rfl, ?_⟩
  decide

theorem patMatches_fooStarPat_iff (p : String) :
    patMatches [.lit ['f', 'o', 'o'], .optSeg, .anyFile] p = true ↔
      ∃ pre mid name,
        p.data = pre ++ ('/' :: ['f', 'o', 'o'] ++ (mid ++ '/' :: (name ++ ['.', 'g', 'o']))) ∧
        (mid = [] ∨ ∃ m, mid = '/' :: m) ∧ name ≠ [] ∧
        name.all (fun c => c != '/') = true := by
  rw [patMatches_iff]
  constructor
  · rintro ⟨s, hs, hm⟩
    obtain ⟨mid, name, hseq, hmid, hne, hall⟩ := (matchItems_fooStar_iff s).mp hm
    obtain ⟨pre, hpre⟩ := hs
    exact ⟨pre, mid, name, by rw [← hpre, hseq], hmid, hne, hall⟩
  · rintro ⟨pre, mid, name, hp, hmid, hne, hall⟩
    refine ⟨'/' :: ['f', 'o', 'o'] ++ (mid ++ '/' :: (name ++ ['.', 'g', 'o'])), ⟨pre, hp.symm⟩, ?_⟩
    exact (matchItems_fooStar_iff _).mpr ⟨mid, name, rfl, hmid, hne, hall⟩

/-! ## Verbosity controller

Modelled from the spec (§4.2): a global threshold plus an ordered list of
compiled override rules; a level is enabled iff it is at most the threshold,
unless some rule's pattern matches the caller's file, in which case that
rule's level replaces the threshold. -/

/-- A compiled override rule: `pattern=level`. -/
structure Rule where
  pattern : List PatItem
  level : Nat
  deriving DecidableEq, Repr

/-- Modelled from the spec: walk the override rules in registration order and
return the level of the first rule whose pattern matches the caller's file
(the vmodule filter walk). -/
def findRuleLevel : List Rule → String → Option Nat
  | [], _ => none
  | r :: rs, file =>
    if patMatches r.pattern file then some r.level else findRuleLevel rs file

/-- Modelled from the spec: `IsEnabled(level, callerFile)` — true iff
`level ≤ threshold`, unless an override rule's pattern matches `callerFile`,
in which case `level ≤ thatRule.level` is returned instead. -/
def isEnabled (rules : List Rule) (threshold level : Nat) (file : String) : Bool :=
  match findRuleLevel rules file with
  | some l => decide (level ≤ l)
  | none => decide (level ≤ threshold)

theorem findRuleLevel_eq_find? (rules : List Rule) (file : String) :
    findRuleLevel rules file =
      (rules.find? (fun r => patMatches r.pattern file)).map Rule.level := by
  induction rules with
  | nil => rfl
  | cons r rs ih =>
    by_cases h : patMatches r.pattern file = true
    · simp [findRuleLevel, List.find?_cons, h]
    · simp only [Bool.not_eq_true] at h
      simp [findRuleLevel, List.find?_cons, h, ih]

/-- Modelled from the spec: `V(n).Info(msg)` — format and write the line to
the Info sink iff level `n` is enabled for the caller's file; otherwise
leave every sink untouched (the message is never rendered). -/
def vInfo (rules : List Rule) (threshold level : Nat) (callerFile : String)
    (t : Clock) (pid : Nat) (file : String) (line : Nat) (msg : String)
    (st : Sinks) : Sinks :=
  if isEnabled rules threshold level callerFile then
    output .info (renderLine .info t pid file line msg) st
  else st

/-! ## Rotation policy

Modelled from the spec (§4.4), with all fourteen decision rows pinned by
`TestShouldRotate`: an empty file never rotates; otherwise rotation fires if
the elapsed time since file creation has reached the configured interval
window, or if the pending write would push the file past `MaxSize` while the
file already holds at least `MinSize` bytes (`MaxSize = 0` disables the size
trigger). -/

/-- The rotation interval enumeration. -/
inductive Interval
  | never
  | hourly
  | daily
  | weekly
  | monthly
  deriving DecidableEq, Repr

/-- Nanoseconds in one hour (Go `time.Hour`). -/
def hourNs : Nat := 3600 * 1000000000

/-- The fixed rotation window of each interval, in nanoseconds;
`none` for `Never`.  Monthly is a fixed 30×24h window. -/
def intervalWindow : Interval → Option Nat
  | .never => none
  | .hourly => some hourNs
  | .daily => some (24 * hourNs)
  | .weekly => some (7 * 24 * hourNs)
  | .monthly => some (30 * 24 * hourNs)

/-- The rotation configuration: `MinSize`, `MaxSize` (bytes) and the
interval. -/
structure RotationConfig where
  minSize : Nat
  maxSize : Nat
  interval : Interval
  deriving DecidableEq, Repr

/-- Modelled from the spec: `syncBuffer.shouldRotate(len, now)` (absent from
src).  `nbytes` is the byte counter of the open file, `len` the pending
write length, `elapsedNs` the nanoseconds from the file's creation time to
`now`.  An empty file never rotates; the interval trigger fires once the
elapsed time reaches the interval window; the size trigger fires when
`MaxSize` is nonzero, the pending write would exceed it, and the file
already holds at least `MinSize` bytes.  All rows of `TestShouldRotate` are
reproduced by this definition (see `shouldRotate_test_table`). -/
def shouldRotate (cfg : RotationConfig) (nbytes len elapsedNs : Nat) : Bool :=
  if nbytes = 0 then false
  else
    (match intervalWindow cfg.interval with
     | some w => decide (w ≤ elapsedNs)
     | none => false) ||
    (decide (0 < cfg.maxSize) && decide (cfg.maxSize < nbytes + len) &&
      decide (cfg.minSize ≤ nbytes))

/-! ## Filename timestamp extractor

Modelled from the spec (§4.7), with the six cases of `TestExtractTimestamp`
pinned: a rotated filename is `<prefix><SEVERITYNAME>.<timestamp>.<pid>`
plus optional trailing suffixes; the timestamp is the second dot-separated
token after the prefix. -/

/-- Go `strings.Split` on `'.'`, over character lists. -/
def splitOnDot : List Char → List (List Char)
  | [] => [[]]
  | c :: cs =>
    let r := splitOnDot cs
    if c = '.' then [] :: r else (c :: r.headI) :: r.tail

/-- Modelled from the spec: `extractTimestamp(fileName, prefix)` (absent
from src).  If the prefix does not match, or the remainder after the prefix
is too short to be `<SEVERITYNAME>.<timestamp>.<pid>[...]`, the result is
empty; otherwise the embedded timestamp token is returned.  Tolerates a
trailing compression suffix and further trailing suffix segments. -/
def extractTimestamp (fileName preffix : String) : String :=
  if preffix.data.isPrefixOf fileName.data then
    let rest := (fileName.data.drop preffix.data.length)
    let parts := (splitOnDot rest)
    if 3 ≤ parts.length then String.mk (parts.getD 1 []) else ""
  else ""

/-! ## Standard-library log redirection -/

/-- Go `strings.ToUpper` over ASCII severity names. -/
def upperChar (c : Char) : Char :=
  if 'a' ≤ c ∧ c ≤ 'z' then Char.ofNat (c.toNat - 32) else c

/-- Modelled from the spec: `severityByName` (absent from src) — resolve a
severity from its (case-insensitive) name. -/
def severityByName (s : String) : Option Severity :=
  [Severity.info, Severity.warning, Severity.error, Severity.fatal].find?
    (fun sev => severityName sev == String.mk (s.data.map upperChar))

/-- Modelled from the spec: `CopyStandardLogTo(name)` (absent from src) —
redirect the standard library's log output to the named severity; an
unrecognized name is a programmer error and panics immediately with a
message quoting the invalid name (`TestCopyStandardLogToPanic`).  The panic
is modelled as the `Except.error` branch carrying the panic message. -/
def copyStandardLogTo (name : String) : Except String Severity :=
  match severityByName name with
  | some sev => .ok sev
  | none =>
    .error ("log.CopyStandardLogTo(\"" ++ name ++ "\"): unrecognized severity name")

end Glog

/-! ## Multi-VM transaction processor (core/multivm_processor.go) -/

namespace Core

/-- The receipt fields `ApplyMultiVmTransaction` populates
(`types.Receipt`, with hashes and addresses abstracted to numbers). -/
structure Receipt where
  postState : Nat
  cumulativeGasUsed : Int
  gasUsed : Int
  txHash : Nat
  contractAddress : Option Nat
  deriving DecidableEq, Repr

/-- `types.NewReceipt(root, cumulativeGasUsed)`: records the post state and
the cumulative gas; the remaining fields start at their zero values. -/
def newReceipt (root : Nat) (cumulativeGas : Int) : Receipt :=
  { postState := root, cumulativeGasUsed := cumulativeGas, gasUsed := 0,
    txHash := 0, contractAddress := none }

/-- The outcome of the VM execution loop and the transaction data that the
post-execution accounting of `ApplyMultiVmTransaction` reads: `vm.UsedGas()`,
the intermediate state root, `tx.Hash()`, `tx.To()` and the would-be created
contract address. -/
structure TxResult where
  usedGas : Int
  root : Nat
  txHash : Nat
  toAddress : Option Nat
  createdAddress : Nat
  deriving DecidableEq, Repr

/-- `MessageCreatesContract(tx)`: the transaction has no destination. -/
def messageCreatesContract (toAddress : Option Nat) : Bool := toAddress.isNone

/-- The post-execution accounting of `ApplyMultiVmTransaction`
(multivm_processor.go lines 144-162): add `vm.UsedGas()` into the running
block total `totalUsedGas`, build the receipt from the updated total
(`types.NewReceipt(root, totalUsedGas)` and
`receipt.GasUsed = new(big.Int).Set(totalUsedGas)`), set the contract
address for creation transactions, and return the receipt together with the
updated total (the function's third result). -/
def applyMultiVmTransaction (r : TxResult) (totalUsedGas : Int) : Receipt × Int :=
  let usedGas := r.usedGas
  let total1 := totalUsedGas + usedGas
  let receipt0 := newReceipt r.root total1
  let receipt1 := { receipt0 with txHash := r.txHash, gasUsed := total1 }
  let receipt2 := if messageCreatesContract r.toAddress then
      { receipt1 with contractAddress := some r.createdAddress } else receipt1
  (receipt2, total1)

end Core

namespace Glog

/-! ## Helper lemmas for the claim theorems -/

theorem append_ne_self {a r : String} (h : r ≠ "") : a ++ r ≠ a := by
  intro he
  apply h
  have hd := congrArg String.data he
  rw [String.data_append] at hd
  have h0 : a.data ++ r.data = a.data ++ [] := by simpa using hd
  have hr : r.data = [] := List.append_cancel_left h0
  exact String.ext hr

theorem renderLine_ne_empty (s : Severity) (t : Clock) (pid : Nat) (file : String)
    (line : Nat) (msg : String) : renderLine s t pid file line msg ≠ "" := by
  intro h
  have hd := congrArg String.data h
  unfold renderLine formatHeader at hd
  simp [String.data_append, String.singleton] at hd

/-! ## Supporting validation against the test tables -/

/-- The regex text compiled from each reference glob of
`TestCompileModulePattern` is exactly the pinned string. -/
theorem regexOf_test_table :
    regexOf (compileModulePattern "foo/bar/x.go") = ".*/foo/bar/x\\.go$" ∧
    regexOf (compileModulePattern "foo/*/x.go") = ".*/foo(/.*)?/x\\.go$" ∧
    regexOf (compileModulePattern "foo/*") = ".*/foo(/.*)?/[^/]+\\.go$" :=
  ⟨by decide, by decide, by decide⟩

/-- The rotation model reproduces all fourteen decision rows of
`TestShouldRotate` (elapsed times converted to nanoseconds). -/
theorem shouldRotate_test_table :
    shouldRotate ⟨0, 0, .never⟩ 0 123 0 = false ∧
    shouldRotate ⟨0, 0, .hourly⟩ 0 123 0 = false ∧
    shouldRotate ⟨0, 1048576, .never⟩ 0 123 0 = false ∧
    shouldRotate ⟨0, 0, .hourly⟩ 1234 123 (45 * 60 * 1000000000) = false ∧
    shouldRotate ⟨0, 0, .hourly⟩ 1234 123 (65 * 60 * 1000000000) = true ∧
    shouldRotate ⟨524288, 1048576, .never⟩ 1024 123 0 = false ∧
    shouldRotate ⟨524288, 1048576, .never⟩ (765 * 1024) 123 0 = false ∧
    shouldRotate ⟨524288, 1048576, .never⟩ (1048576 - 100) 123 0 = true ∧
    shouldRotate ⟨0, 0, .daily⟩ 1234 123 (23 * hourNs) = false ∧
    shouldRotate ⟨0, 0, .daily⟩ 1234 123 (25 * hourNs) = true ∧
    shouldRotate ⟨0, 0, .weekly⟩ 1234 123 ((6 * 24 + 23) * hourNs) = false ∧
    shouldRotate ⟨0, 0, .weekly⟩ 1234 123 ((7 * 24 + 1) * hourNs) = true ∧
    shouldRotate ⟨0, 0, .monthly⟩ 1234 123 (14 * 24 * hourNs) = false ∧
    shouldRotate ⟨0, 0, .monthly⟩ 1234 123 (30 * 24 * hourNs) = true := by
  refine ⟨by decide, by decide, by decide, by decide, by decide, by decide, by decide,
    by decide, by decide, by decide, by decide, by decide, by decide, by decide⟩

/-- The timestamp extractor reproduces the six rows of
`TestExtractTimestamp`. -/
theorem extractTimestamp_test_table :
    extractTimestamp "geth_test.sampleHost.sampleUser.log.INFO.20171202-132113.2841"
      "geth_test.sampleHost.sampleUser.log." = "20171202-132113" ∧
    extractTimestamp "geth_test.sampleHost.sampleUser.log.WARNING.20171202-210922.13848"
      "geth_test.sampleHost.sampleUser.log." = "20171202-210922" ∧
    extractTimestamp "geth_test.sampleHost.sampleUser.log.WARNING.20171202-210922.13848.gz"
      "geth_test.sampleHost.sampleUser.log." = "20171202-210922" ∧
    extractTimestamp "geth_test.sampleHost.sampleUser.log.WARNING.20171202-210922.13848.gz.bak"
      "geth_test.sampleHost.sampleUser.log." = "20171202-210922" ∧
    extractTimestamp "geth_test.sampleHost.sampleUser.log.WARNING.20171202-21092"
      "geth_test.sampleHost.sampleUser.log." = "" ∧
    extractTimestamp "WARNING.20171202-21092"
      "geth_test.sampleHost.sampleUser.log." = "" :=
  ⟨by decide, by decide, by decide, by decide, by decide, by decide⟩

/-! ## Claim theorems -/

/-- C1, counterexample: at the fixed clock and pid of `TestHeader1ErrorLog`
the rendered line is exactly the bytes the test expects — with no pid column
— and therefore differs from the format claimed by the spec, which places
`<pid>` between the microsecond timestamp and `<file>:<line>`. -/
theorem renderLine_no_pid_column_counterexample :
    renderLine .error ⟨1, 2, 15, 4, 5, 67890⟩ 1234 "logger/glog/glog_test.go" 182 "test" =
      severityColor .error ++ "E" ++ severityColorReset ++
        "0102 15:04:05.067890 logger/glog/glog_test.go:182] test\n" ∧
    renderLine .error ⟨1, 2, 15, 4, 5, 67890⟩ 1234 "logger/glog/glog_test.go" 182 "test" ≠
      specPidLine .error ⟨1, 2, 15, 4, 5, 67890⟩ 1234 "logger/glog/glog_test.go" 182 "test" :=
  ⟨by decide, by decide⟩

/-- C1, amended: for a fixed injected clock and pid, every rendered log line
is bit-exactly `<ColorStart><SevChar><ColorReset>MMDD HH:MM:SS.ffffff
<file>:<line>] <message>` followed by a newline, with zero-padded date/time
fields and microsecond precision; the process id does not appear in the
line, so the rendering is independent of the pid. -/
theorem renderLine_amended_format (s : Severity) (t : Clock) (pid pid2 : Nat)
    (file : String) (line : Nat) (msg : String)
    (hmo : t.month < 100) (hda : t.day < 100) (hho : t.hour < 100)
    (hmi : t.minute < 100) (hse : t.second < 100) (hus : t.micros < 1000000) :
    renderLine s t pid file line msg = specNoPidLine s t file line msg ∧
    renderLine s t pid file line msg = renderLine s t pid2 file line msg := by
  constructor
  · unfold renderLine specNoPidLine formatHeader
    rw [twoDigits_eq_padDec hmo, twoDigits_eq_padDec hda, twoDigits_eq_padDec hho,
      twoDigits_eq_padDec hmi, twoDigits_eq_padDec hse, sixDigits_eq_padDec hus]
  · rfl

/-- C1, witness for the amended theorem at the input of
`TestHeader1ErrorLog`. -/
theorem renderLine_amended_format_witness :
    renderLine .error ⟨1, 2, 15, 4, 5, 67890⟩ 1234 "logger/glog/glog_test.go" 182 "test" =
      specNoPidLine .error ⟨1, 2, 15, 4, 5, 67890⟩ "logger/glog/glog_test.go" 182 "test" :=
  (renderLine_amended_format .error ⟨1, 2, 15, 4, 5, 67890⟩ 1234 0
    "logger/glog/glog_test.go" 182 "test"
    (by decide) (by decide) (by decide) (by decide) (by decide) (by decide)).1

/-- C2: a write at Error appends the same bytes to the Error, Warning and
Info sinks; a write at Warning appends the same bytes to the Warning and
Info sinks and leaves the others unchanged; a write at Info appends only to
the Info sink. -/
theorem output_cascades (st : Sinks) (d : String) :
    ((output .error d st).error = st.error ++ d ∧
      (output .error d st).warning = st.warning ++ d ∧
      (output .error d st).info = st.info ++ d ∧
      (output .error d st).fatal = st.fatal) ∧
    ((output .warning d st).warning = st.warning ++ d ∧
      (output .warning d st).info = st.info ++ d ∧
      (output .warning d st).error = st.error ∧
      (output .warning d st).fatal = st.fatal) ∧
    ((output .info d st).info = st.info ++ d ∧
      (output .info d st).warning = st.warning ∧
      (output .info d st).error = st.error ∧
      (output .info d st).fatal = st.fatal) :=
  ⟨⟨rfl, rfl, rfl, rfl⟩, ⟨rfl, rfl, rfl, rfl⟩, ⟨rfl, rfl, rfl, rfl⟩⟩

/-- C3, counterexample: the matcher compiled from `"foo/*"` accepts
`/foo/a/b/c.go`, a file two path segments below the `foo` directory, so it
does not accept exactly the files one path segment below a `foo`
directory. -/
theorem compile_fooStar_deep_match_counterexample :
    compileModulePattern "foo/*" = [.lit ['f', 'o', 'o'], .optSeg, .anyFile] ∧
    patMatches (compileModulePattern "foo/*") "/foo/a/b/c.go" = true ∧
    ¬ ∃ pre name, "/foo/a/b/c.go".data = pre ++ '/' :: 'f' :: 'o' :: 'o' :: '/' :: name ∧
        name ≠ [] ∧ name.all (fun c => c != '/') = true := by
  refine ⟨by decide, by decide, ?_⟩
  intro h
  exact absurd ((oneSegBelowFoo_iff _).mpr h) (by decide)

/-- C3, amended: the matcher compiled from `"foo/bar/x.go"` accepts exactly
the paths ending in `/foo/bar/x.go`; the matcher compiled from
`"foo/*/x.go"` accepts `/foo/<anything>/x.go` and also bare `/foo/x.go`;
and the matcher compiled from `"foo/*"` accepts exactly the `.go` files one
or more path segments below a `foo` directory (the directory wildcard spans
whole path segments, so deeper files also match), with the `.go` extension
appended because the glob has none. -/
theorem compileModulePattern_reference_globs :
    (∀ p : String, patMatches (compileModulePattern "foo/bar/x.go") p = true ↔
      "/foo/bar/x.go".data <:+ p.data) ∧
    (patMatches (compileModulePattern "foo/*/x.go") "/foo/x.go" = true ∧
      ∀ mid : String,
        patMatches (compileModulePattern "foo/*/x.go") ("/foo/" ++ mid ++ "/x.go") = true) ∧
    (∀ p : String, patMatches (compileModulePattern "foo/*") p = true ↔
      ∃ pre mid name,
        p.data = pre ++ ('/' :: ['f', 'o', 'o'] ++ (mid ++ '/' :: (name ++ ['.', 'g', 'o']))) ∧
        (mid = [] ∨ ∃ m, mid = '/' :: m) ∧ name ≠ [] ∧
        name.all (fun c => c != '/') = true) := by
  have h1 : compileModulePattern "foo/bar/x.go" =
      [.lit ['f', 'o', 'o'], .lit ['b', 'a', 'r'], .lit ['x', '.', 'g', 'o']] := by decide
  have h2 : compileModulePattern "foo/*/x.go" =
      [.lit ['f', 'o', 'o'], .optSeg, .lit ['x', '.', 'g', 'o']] := by decide
  have h3 : compileModulePattern "foo/*" =
      [.lit ['f', 'o', 'o'], .optSeg, .anyFile] := by decide
  rw [h1, h2, h3]
  exact ⟨patMatches_fooBarXgo_iff, ⟨by decide, patMatches_fooMidXgo⟩, patMatches_fooStarPat_iff⟩

end Glog

namespace Glog

/-- C4: with a size-only configuration (interval `Never`), rotation fires
exactly when the pending write would push a non-empty file past a nonzero
`MaxSize` while the file already holds at least `MinSize` bytes; below
`MinSize` it never fires even when `MaxSize` would be exceeded; and with
`MaxSize = 0` (disabled) it never rotates on size grounds alone. -/
theorem shouldRotate_size_trigger (minS maxS nbytes len e : Nat) :
    (0 < nbytes → 0 < maxS →
      (shouldRotate ⟨minS, maxS, .never⟩ nbytes len e = true ↔
        (maxS < nbytes + len ∧ minS ≤ nbytes))) ∧
    (nbytes < minS → shouldRotate ⟨minS, maxS, .never⟩ nbytes len e = false) ∧
    shouldRotate ⟨minS, 0, .never⟩ nbytes len e = false := by
  refine ⟨?_, ?_, ?_⟩
  · intro h0 hmax
    have hne : nbytes ≠ 0 := by omega
    simp [shouldRotate, intervalWindow, hne, hmax]
  · intro hlt
    by_cases hne : nbytes = 0
    · simp [shouldRotate, hne]
    · simp [shouldRotate, intervalWindow, hne]
      omega
  · by_cases hne : nbytes = 0 <;> simp [shouldRotate, intervalWindow, hne]

/-- C4, witness: the size rows of `TestShouldRotate` — rotation fires just
below `MaxSize` with a pending write crossing it, and does not fire below
`MinSize`. -/
theorem shouldRotate_size_trigger_witness :
    shouldRotate ⟨524288, 1048576, .never⟩ 1048476 123 0 = true ∧
    shouldRotate ⟨524288, 1048576, .never⟩ 1024 123 0 = false :=
  ⟨((shouldRotate_size_trigger 524288 1048576 1048476 123 0).1
      (by decide) (by decide)).mpr (by decide),
    (shouldRotate_size_trigger 524288 1048576 1024 123 0).2.1 (by decide)⟩

/-- C5: an empty (zero-byte) log never rotates, whatever the configuration;
for a non-empty log, the interval trigger is off strictly below the
configured window and on strictly above it, the windows being fixed at 1h,
24h, 7×24h and 30×24h; and `MinSize` never gates the interval trigger (the
decision is independent of `MinSize` when the size trigger is disabled). -/
theorem shouldRotate_interval_trigger (cfg : RotationConfig) (minS nbytes len e w : Nat)
    (i : Interval) :
    shouldRotate cfg 0 len e = false ∧
    (intervalWindow .hourly = some hourNs ∧
      intervalWindow .daily = some (24 * hourNs) ∧
      intervalWindow .weekly = some (7 * 24 * hourNs) ∧
      intervalWindow .monthly = some (30 * 24 * hourNs)) ∧
    (0 < nbytes → intervalWindow i = some w →
      ((e < w → shouldRotate ⟨minS, 0, i⟩ nbytes len e = false) ∧
        (w < e → shouldRotate ⟨minS, 0, i⟩ nbytes len e = true))) ∧
    shouldRotate ⟨minS, 0, i⟩ nbytes len e = shouldRotate ⟨0, 0, i⟩ nbytes len e := by
  refine ⟨by simp [shouldRotate], ⟨rfl, rfl, rfl, rfl⟩, ?_, ?_⟩
  · intro h0 hw
    have hne : nbytes ≠ 0 := by omega
    constructor
    · intro hlt
      simp [shouldRotate, hne, hw]
      omega
    · intro hgt
      simp [shouldRotate, hne, hw]
      omega
  · by_cases hne : nbytes = 0 <;> simp [shouldRotate, hne]

/-- C5, witness: the hourly rows of `TestShouldRotate` (45 and 65 minutes)
and an empty log with monthly rotation and elapsed time past the window. -/
theorem shouldRotate_interval_trigger_witness :
    shouldRotate ⟨0, 0, .hourly⟩ 1234 123 (65 * 60 * 1000000000) = true ∧
    shouldRotate ⟨0, 0, .hourly⟩ 1234 123 (45 * 60 * 1000000000) = false ∧
    shouldRotate ⟨512, 0, .monthly⟩ 0 123 (999 * 24 * hourNs) = false :=
  ⟨((shouldRotate_interval_trigger ⟨0, 0, .hourly⟩ 0 1234 123
      (65 * 60 * 1000000000) hourNs .hourly).2.2.1 (by decide) rfl).2 (by decide),
    ((shouldRotate_interval_trigger ⟨0, 0, .hourly⟩ 0 1234 123
      (45 * 60 * 1000000000) hourNs .hourly).2.2.1 (by decide) rfl).1 (by decide),
    (shouldRotate_interval_trigger ⟨512, 0, .monthly⟩ 512 1 123
      (999 * 24 * hourNs) hourNs .monthly).1⟩

/-- C6: `isEnabled` returns `level ≤ threshold` when no override rule's
pattern matches the caller's file, and `level ≤ r.level` where `r` is the
first matching rule otherwise — the matching rule governs its call sites
whether it raises or lowers the effective verbosity relative to the
threshold. -/
theorem isEnabled_override_semantics (rules : List Rule) (threshold level : Nat)
    (file : String) :
    ((∀ r ∈ rules, patMatches r.pattern file = false) →
      (isEnabled rules threshold level file = true ↔ level ≤ threshold)) ∧
    (∀ r : Rule, rules.find? (fun r => patMatches r.pattern file) = some r →
      (isEnabled rules threshold level file = true ↔ level ≤ r.level)) := by
  constructor
  · intro hnone
    have hfind : rules.find? (fun r => patMatches r.pattern file) = none := by
      apply List.find?_eq_none.mpr
      intro r hr
      simp [hnone r hr]
    unfold isEnabled
    rw [findRuleLevel_eq_find?, hfind]
    simp
  · intro r hr
    unfold isEnabled
    rw [findRuleLevel_eq_find?, hr]
    simp

/-- C6, witness: with the override `glog_test.go=2` and threshold 0, level 2
is enabled for this file (the override raises verbosity); with the override
`glog_test.go=1` and threshold 5, level 2 is disabled (the override lowers
verbosity below the threshold). -/
theorem isEnabled_override_semantics_witness :
    isEnabled [⟨compileModulePattern "glog_test.go", 2⟩] 0 2
      "logger/glog/glog_test.go" = true ∧
    isEnabled [⟨compileModulePattern "glog_test.go", 1⟩] 5 2
      "logger/glog/glog_test.go" = false := by
  constructor
  · exact ((isEnabled_override_semantics [⟨compileModulePattern "glog_test.go", 2⟩] 0 2
      "logger/glog/glog_test.go").2 ⟨compileModulePattern "glog_test.go", 2⟩
      (by decide)).mpr (by decide)
  · have h := (isEnabled_override_semantics [⟨compileModulePattern "glog_test.go", 1⟩] 5 2
      "logger/glog/glog_test.go").2 ⟨compileModulePattern "glog_test.go", 1⟩ (by decide)
    cases hb : isEnabled [⟨compileModulePattern "glog_test.go", 1⟩] 5 2
      "logger/glog/glog_test.go" with
    | false => rfl
    | true => exact absurd (h.mp hb) (by decide)

/-- C7: when level `n` exceeds the effective verbosity for the calling
file, `V(n).Info` leaves every sink unchanged and the result does not
depend on the message (it is never rendered); when `n` is within the
effective verbosity, the Info sink receives exactly the rendered line (a
nonzero number of bytes) and every other sink is unchanged. -/
theorem vInfo_gating (rules : List Rule) (threshold level : Nat) (callerFile : String)
    (t : Clock) (pid : Nat) (file : String) (line : Nat) (msg msg2 : String) (st : Sinks) :
    (isEnabled rules threshold level callerFile = false →
      vInfo rules threshold level callerFile t pid file line msg st = st ∧
      vInfo rules threshold level callerFile t pid file line msg st =
        vInfo rules threshold level callerFile t pid file line msg2 st) ∧
    (isEnabled rules threshold level callerFile = true →
      (vInfo rules threshold level callerFile t pid file line msg st).info =
        st.info ++ renderLine .info t pid file line msg ∧
      (vInfo rules threshold level callerFile t pid file line msg st).info ≠ st.info ∧
      (vInfo rules threshold level callerFile t pid file line msg st).warning = st.warning ∧
      (vInfo rules threshold level callerFile t pid file line msg st).error = st.error ∧
      (vInfo rules threshold level callerFile t pid file line msg st).fatal = st.fatal) := by
  constructor
  · intro h
    exact ⟨by simp [vInfo, h], by simp [vInfo, h]⟩
  · intro h
    have hv : vInfo rules threshold level callerFile t pid file line msg st =
        output .info (renderLine .info t pid file line msg) st := by
      simp [vInfo, h]
    rw [hv]
    exact ⟨rfl, append_ne_self (renderLine_ne_empty _ _ _ _ _ _), rfl, rfl, rfl⟩

/-- C7, witness: with no override rules and threshold 0, `V(2).Info` leaves
the sinks untouched; with threshold 2 it appends the rendered line to the
Info sink. -/
theorem vInfo_gating_witness :
    vInfo [] 0 2 "f.go" ⟨1, 2, 3, 4, 5, 6⟩ 0 "f.go" 1 "m" ⟨"a", "b", "c", "d"⟩ =
      ⟨"a", "b", "c", "d"⟩ ∧
    (vInfo [] 2 2 "f.go" ⟨1, 2, 3, 4, 5, 6⟩ 0 "f.go" 1 "m" ⟨"a", "b", "c", "d"⟩).info =
      "a" ++ renderLine .info ⟨1, 2, 3, 4, 5, 6⟩ 0 "f.go" 1 "m" :=
  ⟨((vInfo_gating [] 0 2 "f.go" ⟨1, 2, 3, 4, 5, 6⟩ 0 "f.go" 1 "m" "m"
      ⟨"a", "b", "c", "d"⟩).1 (by decide)).1,
    ((vInfo_gating [] 2 2 "f.go" ⟨1, 2, 3, 4, 5, 6⟩ 0 "f.go" 1 "m" "m"
      ⟨"a", "b", "c", "d"⟩).2 (by decide)).1⟩

/-- C8: extracting a timestamp from a rotated filename with the expected
prefix returns the embedded timestamp token, tolerating a trailing
compression suffix and a further trailing suffix segment; a remainder too
short to contain the timestamp-plus-pid tokens yields the empty string, and
so does any filename the prefix does not match. -/
theorem extractTimestamp_spec :
    extractTimestamp "prog.host.user.log.WARNING.20171202-210922.13848.gz"
      "prog.host.user.log." = "20171202-210922" ∧
    extractTimestamp "prog.host.user.log.WARNING.20171202-210922.13848.gz.bak"
      "prog.host.user.log." = "20171202-210922" ∧
    extractTimestamp "prog.host.user.log.WARNING.20171202-21092"
      "prog.host.user.log." = "" ∧
    ∀ f p : String, p.data.isPrefixOf f.data = false → extractTimestamp f p = "" := by
  refine ⟨by decide, by decide, by decide, ?_⟩
  intro f p h
  simp [extractTimestamp, h]

/-- C8, witness: the prefix-mismatch row of `TestExtractTimestamp`. -/
theorem extractTimestamp_spec_witness :
    extractTimestamp "WARNING.20171202-21092" "prog.host.user.log." = "" :=
  extractTimestamp_spec.2.2.2 "WARNING.20171202-21092" "prog.host.user.log." (by decide)

/-- C9: redirecting the standard library's log output to an unrecognized
severity name fails immediately at configuration time with a fatal panic
whose message contains the invalid name. -/
theorem copyStandardLogTo_invalid_name (name : String)
    (h : severityByName name = none) :
    copyStandardLogTo name =
      .error ("log.CopyStandardLogTo(\"" ++ name ++ "\"): unrecognized severity name") ∧
    ∃ l r : String,
      ("log.CopyStandardLogTo(\"" ++ name ++ "\"): unrecognized severity name") =
        l ++ name ++ r := by
  refine ⟨?_, "log.CopyStandardLogTo(\"", "\"): unrecognized severity name", ?_⟩
  · simp [copyStandardLogTo, h]
  · rfl

/-- C9, witness: the invalid name `"LOG"` of `TestCopyStandardLogToPanic`. -/
theorem copyStandardLogTo_invalid_name_witness :
    copyStandardLogTo "LOG" =
      .error ("log.CopyStandardLogTo(\"" ++ "LOG" ++ "\"): unrecognized severity name") :=
  (copyStandardLogTo_invalid_name "LOG" (by decide)).1

end Glog

namespace Core

/-- C10: for every completed `ApplyMultiVmTransaction`, the returned
receipt's `GasUsed` equals the updated cumulative `totalUsedGas` (the
running block total after adding this transaction's gas) — hence differs
from this transaction's own gas whenever the prior total is nonzero — and
the accompanying gas result is that same cumulative total. -/
theorem applyMultiVmTransaction_gas_cumulative (r : TxResult) (totalUsedGas : Int) :
    (applyMultiVmTransaction r totalUsedGas).1.gasUsed = totalUsedGas + r.usedGas ∧
    (applyMultiVmTransaction r totalUsedGas).2 =
      (applyMultiVmTransaction r totalUsedGas).1.gasUsed ∧
    (totalUsedGas ≠ 0 →
      (applyMultiVmTransaction r totalUsedGas).1.gasUsed ≠ r.usedGas) ∧
    (applyMultiVmTransaction r totalUsedGas).1.cumulativeGasUsed =
      totalUsedGas + r.usedGas := by
  unfold applyMultiVmTransaction newReceipt messageCreatesContract
  by_cases h : r.toAddress.isNone <;> simp [h]

/-- C10, witness: a transaction using 21000 gas on top of a prior block
total of 50000. -/
theorem applyMultiVmTransaction_gas_cumulative_witness :
    (applyMultiVmTransaction ⟨21000, 0, 0, some 5, 9⟩ 50000).1.gasUsed = 50000 + 21000 ∧
    (applyMultiVmTransaction ⟨21000, 0, 0, some 5, 9⟩ 50000).1.gasUsed ≠ 21000 :=
  ⟨(applyMultiVmTransaction_gas_cumulative ⟨21000, 0, 0, some 5, 9⟩ 50000).1,
    (applyMultiVmTransaction_gas_cumulative ⟨21000, 0, 0, some 5, 9⟩ 50000).2.2.1
      (by decide)⟩

end Core
